import Mathlib

/-!
A shallow embedding of the `mae_macros` schema code generator
(`src/lib.rs`, `src/util.rs`).

The crate is a procedural-macro library: from a struct definition whose
fields carry policy attributes (`locked`, `insert_only`, `update_only`),
`derive_mae_repo` emits a family of derived artifacts — a column
enumerator (`Field`), an insert-row builder (`InsertRow`), an update-row
builder (`UpdateRow`) and a patch builder (`PatchField`) — each with SQL
fragment generation (`to_sql_parts`) and argument binding
(`bind` / `bind_len`).

The embedding models:
  * the `syn` input shapes the macros inspect (`SField`, `SData`,
    `SDeriveInput`);
  * the compile-time generation functions (`to_patches_variants`,
    `to_fields_out`, `to_row_props`, `derive_mae_repo`, `schema_expand`),
    each translated from the corresponding Rust function;
  * the runtime behaviour of the generated `to_sql_parts` / `bind` /
    `bind_len` methods, translated statement-for-statement from the token
    templates the generator splices (`insert_to_sql_parts`,
    `update_to_sql_parts`, and friends): the generated method bodies are
    a sequence of per-field statement blocks in declaration order, which
    the embedding renders as a left fold over the per-field data.

Values bound at runtime are modelled by an arbitrary type `α`; the
declared Rust types of fields are carried as text (`ty : String`), which
is all the generator itself ever does with them.
-/

namespace MaeMacros

/-- One attribute on a struct field; `path` is the attribute's path
ident (`syn::Attribute::path`), e.g. `locked` for `#[locked]` or `sqlx`
for `#[sqlx(json)]`. -/
structure Attr where
  path : String
deriving DecidableEq, Repr

/-- A struct field as the macros consume it (`syn::Field`): an optional
ident (named-field structs parsed from source always carry `some`), the
declared type rendered as text, and the attribute list. -/
structure SField where
  ident : Option String
  ty : String
  attrs : List Attr
deriving DecidableEq, Repr

/-- The `syn::Data` shapes the macros distinguish: a struct with named
fields versus anything else (tuple struct, unit struct, enum, union) —
every generator in the crate branches only on this distinction. -/
inductive SData where
  | structNamed : List SField → SData
  | otherShape : String → SData
deriving DecidableEq, Repr

/-- `syn::DeriveInput`, restricted to the parts the macros read. -/
structure SDeriveInput where
  ident : String
  data : SData
deriving DecidableEq, Repr

/-- `attr.path().is_ident(s)`. -/
def Attr.isIdent (a : Attr) (s : String) : Bool :=
  a.path == s

/-- The loop body of every generator pushes at most one element per
field; `push_step g` is one iteration of such a push-if-produced loop. -/
def push_step {A B : Type} (g : A → Option B) (acc : List B) (a : A) : List B :=
  match g a with
  | some b => acc ++ [b]
  | none => acc

/-! ## `to_patches` (util.rs:12-105) -/

/-- The filter in `to_patches` (util.rs:38-41): keep a field iff every
attribute path is neither `locked` nor `insert_only`. -/
def patch_field_keep (f : SField) : Bool :=
  f.attrs.all (fun a => !(a.isIdent "locked") && !(a.isIdent "insert_only"))

/-- One variant of the generated `PatchField` enum: the field name and
the declared type the variant carries (`#name_ident(#ty)`). -/
structure PatchVariant where
  name : String
  ty : String
deriving DecidableEq, Repr

/-- What one iteration of the `to_patches` field loop (util.rs:30-59)
contributes for a field: a typed variant when the field has a name and
passes the `locked` / `insert_only` filter, nothing otherwise (unnamed
fields are skipped: the constructed error tokens are discarded by the
`if let Ok` pattern). -/
def patch_variant_of (f : SField) : Option PatchVariant :=
  match f.ident with
  | some n => if patch_field_keep f then some ⟨n, f.ty⟩ else none
  | none => none

/-- The variant list of the generated `PatchField` enum, in declaration
order. -/
def to_patches_variants (fields : List SField) : List PatchVariant :=
  fields.foldl (push_step patch_variant_of) []

/-- Generated `Display for PatchField` (util.rs:68-74): a variant
renders to its bare field name. -/
def patch_to_string (v : PatchVariant) : String :=
  v.name

/-- Generated `ToSqlParts for PatchField` (util.rs:76-82):
`(vec![self.to_string()], None)` — no placeholder list is produced. -/
def patch_to_sql_parts (v : PatchVariant) : List String × Option (List String) :=
  ([patch_to_string v], none)

/-- Generated `BindArgs::bind for PatchField` (util.rs:85-89): the one
carried value is added to the argument sink. An instance is a variant
together with its carried value. -/
def patch_bind {α : Type} (inst : PatchVariant × α) : List α :=
  [inst.2]

/-- Generated `BindArgs::bind_len for PatchField` (util.rs:90-93):
constantly `1`. -/
def patch_bind_len (_v : PatchVariant) : Nat :=
  1

/-! ## `to_fields` (util.rs:107-172) -/

/-- The accumulators of the `to_fields` field loop (util.rs:119-143):
`all_cols` and the enum variant names, plus the compile-error messages
pushed for unnamed fields (in the source the error token stream is
pushed into the `variants` vector; the embedding tracks the error
messages in their own list). -/
structure FieldsOut where
  all_cols : List String
  variants : List String
  errors : List String
deriving DecidableEq, Repr

/-- One iteration of the `to_fields` loop: an unnamed field pushes a
compile error and is skipped; a named field contributes its name to
`all_cols` and a variant. -/
def to_fields_step (acc : FieldsOut) (f : SField) : FieldsOut :=
  match f.ident with
  | none =>
      { acc with errors := acc.errors ++ ["expected a named field (missing ident)"] }
  | some n =>
      { acc with all_cols := acc.all_cols ++ [n], variants := acc.variants ++ [n] }

/-- The full `to_fields` loop over the field list. -/
def to_fields_out (fields : List SField) : FieldsOut :=
  fields.foldl to_fields_step ⟨[], [], []⟩

/-- A value of the generated `Field` enum: the synthetic `All` variant
or a per-column variant. -/
inductive FieldSel where
  | All : FieldSel
  | col : String → FieldSel
deriving DecidableEq, Repr

/-- Generated `Display for Field` (util.rs:161-168): `All` renders to
`all_cols.join(", ")`; any other variant renders to its own name
(the generated match arm for variant `#name` returns `#name_str`). -/
def field_display (fields : List SField) : FieldSel → String
  | .All => String.intercalate ", " (to_fields_out fields).all_cols
  | .col n => n

/-- Generated `ToSqlParts for Field` (util.rs:155-159):
`(vec![self.to_string()], None)`. No `BindArgs` impl is generated for
`Field` at all. -/
def field_to_sql_parts (fields : List SField) (s : FieldSel) :
    List String × Option (List String) :=
  ([field_display fields s], none)

/-! ## `to_row` (util.rs:174-305) -/

/-- The attribute blacklist `derive_mae_repo` passes for the insert row
(lib.rs:169). -/
def insert_black_list : List String :=
  ["locked", "update_only"]

/-- The attribute blacklist `derive_mae_repo` passes for the update row
(lib.rs:170). -/
def update_black_list : List String :=
  ["locked", "insert_only"]

/-- util.rs:186: `attr_black_list.contains("update_only")` selects the
insert-row flavour. -/
def to_row_is_insert (bl : List String) : Bool :=
  bl.contains "update_only"

/-- util.rs:189-193: the generated type's name. -/
def to_row_ident (bl : List String) : String :=
  if to_row_is_insert bl then "InsertRow" else "UpdateRow"

/-- The filter in `to_row` (util.rs:209-214): keep a field iff every
attribute path differs from every blacklisted name. -/
def row_field_keep (bl : List String) (f : SField) : Bool :=
  f.attrs.all (fun a => bl.all (fun abl => !(a.isIdent abl)))

/-- One property of the generated row struct: name, declared type text,
and whether the property is `Option`-wrapped (util.rs:218 vs 238). -/
structure RowProp where
  name : String
  ty : String
  optional : Bool
deriving DecidableEq, Repr

/-- What one iteration of the `to_row` field loop (util.rs:201-265)
contributes: a required property for the insert flavour, an optional one
for the update flavour; unnamed or blacklisted fields contribute
nothing. -/
def row_prop_of (bl : List String) (f : SField) : Option RowProp :=
  match f.ident with
  | some n => if row_field_keep bl f then some ⟨n, f.ty, !(to_row_is_insert bl)⟩ else none
  | none => none

/-- The property list of the generated row struct, in declaration
order. -/
def to_row_props (bl : List String) (fields : List SField) : List RowProp :=
  fields.foldl (push_step (row_prop_of bl)) []

/-- One statement block of the generated `InsertRow::to_sql_parts`
(util.rs:221-225): `i += 1; sql.push(name); sql_i.push(format!("${}", i))`.
The state is `(i, sql, sql_i)`. -/
def insert_sql_step (acc : Nat × List String × List String) (n : String) :
    Nat × List String × List String :=
  (acc.1 + 1, acc.2.1 ++ [n], acc.2.2 ++ ["$" ++ toString (acc.1 + 1)])

/-- Generated `InsertRow::to_sql_parts` (util.rs:274-283): starts
`i = 0` and runs one `insert_sql_step` per included field, returning
`(sql, Some(sql_i))`. The input is the included field-name list in
declaration order. -/
def insert_to_sql_parts (names : List String) : List String × Option (List String) :=
  let r := names.foldl insert_sql_step (0, [], [])
  (r.2.1, some r.2.2)

/-- Generated `InsertRow::bind` (util.rs:230-232, 285-288): one
`args.add(&self.field)` per included field, in declaration order. An
instance supplies one value per included field. -/
def insert_bind {α : Type} (vals : List α) : List α :=
  vals.foldl (fun acc v => acc ++ [v]) []

/-- Generated `InsertRow::bind_len` (util.rs:227-229, 289-293):
`count = 0` then one unconditional `count += 1` per included field. -/
def insert_bind_len (props : List RowProp) : Nat :=
  props.foldl (fun c _ => c + 1) 0

/-- One statement block of the generated `UpdateRow::to_sql_parts`
(util.rs:241-246): `if let Some(v) = &self.field { i += 1;
sql.push(name); sql_i.push(format!("${}", i)) }`. -/
def row_sql_step {α : Type} (acc : Nat × List String × List String)
    (p : String × Option α) : Nat × List String × List String :=
  match p.2 with
  | some _ => (acc.1 + 1, acc.2.1 ++ [p.1], acc.2.2 ++ ["$" ++ toString (acc.1 + 1)])
  | none => acc

/-- Generated `UpdateRow::to_sql_parts` (util.rs:274-283): starts
`i = 0`, runs one `row_sql_step` per included field in declaration
order, returning `(sql, Some(sql_i))`. An instance is the list of
(field name, optional value) pairs of the struct's properties. -/
def update_to_sql_parts {α : Type} (inst : List (String × Option α)) :
    List String × Option (List String) :=
  let r := inst.foldl row_sql_step (0, [], [])
  (r.2.1, some r.2.2)

/-- Generated `UpdateRow::bind` (util.rs:253-256): one
`if let Some(v) = &self.field { args.add(v) }` per included field. -/
def update_bind {α : Type} (inst : List (String × Option α)) : List α :=
  inst.foldl (push_step (fun p => p.2)) []

/-- One statement block of the generated `UpdateRow::bind_len`
(util.rs:248-252): `if let Some(v) = &self.field { count += 1 }`. -/
def count_step {α : Type} (c : Nat) (p : String × Option α) : Nat :=
  match p.2 with
  | some _ => c + 1
  | none => c

/-- Generated `UpdateRow::bind_len` (util.rs:289-293). -/
def update_bind_len {α : Type} (inst : List (String × Option α)) : Nat :=
  inst.foldl count_step 0

/-- An `UpdateRow` instance for a schema: the generated struct's
properties paired positionally with the optional values the caller
stored in them. -/
def update_instance {α : Type} (props : List RowProp) (vals : List (Option α)) :
    List (String × Option α) :=
  (props.map (fun p => p.name)).zip vals

/-! ## `derive_mae_repo` (lib.rs:152-181) -/

/-- The type name `to_fields` emits (util.rs:123). -/
def to_fields_ident : String :=
  "Field"

/-- The type name `to_patches` emits (util.rs:27). -/
def to_patches_ident : String :=
  "PatchField"

/-- Everything `derive_mae_repo` splices into its output token stream,
in emission order: the artifact type names
(`#repo_variant #insert_row #update_row #repo_typed`, lib.rs:174-179)
and the content of each artifact. -/
structure MaeArtifacts where
  artifact_idents : List String
  fields_out : FieldsOut
  insert_props : List RowProp
  update_props : List RowProp
  patch_variants : List PatchVariant
deriving DecidableEq, Repr

/-- The diagnostic of the shape check in `derive_mae_repo`
(lib.rs:157-167). -/
def derive_malformed_msg : String :=
  "MaeRepo derive expects a struct with named fields"

/-- `derive_mae_repo` (lib.rs:152-181): reject anything that is not a
struct with named fields (returning only the compile error, no
artifacts), otherwise emit the four artifacts. -/
def derive_mae_repo (ast : SDeriveInput) : Except String MaeArtifacts :=
  match ast.data with
  | .structNamed fields =>
      .ok { artifact_idents :=
              [to_fields_ident, to_row_ident insert_black_list,
               to_row_ident update_black_list, to_patches_ident]
          , fields_out := to_fields_out fields
          , insert_props := to_row_props insert_black_list fields
          , update_props := to_row_props update_black_list fields
          , patch_variants := to_patches_variants fields }
  | .otherShape _ => .error derive_malformed_msg

/-- The artifact type names `derive_mae_repo` emits (empty on
rejection). -/
def derive_artifact_idents (ast : SDeriveInput) : List String :=
  match derive_mae_repo ast with
  | .ok arts => arts.artifact_idents
  | .error _ => []

/-- The unnamed-field compile errors embedded in the emitted `Field`
enum (empty on rejection). -/
def derive_field_errors (ast : SDeriveInput) : List String :=
  match derive_mae_repo ast with
  | .ok arts => arts.fields_out.errors
  | .error _ => []

/-! ## The `schema` attribute macro (lib.rs:84-150) -/

/-- The diagnostic of the shape check in `schema` (lib.rs:95-102). -/
def schema_malformed_msg : String :=
  "schema only works for structs with named fields"

/-- The fields `schema` injects before the user's fields
(lib.rs:123-127). -/
def schema_front_fields : List SField :=
  [⟨some "id", "i32", [⟨"locked"⟩]⟩,
   ⟨some "sys_client", "i32", [⟨"insert_only"⟩]⟩,
   ⟨some "status", "mae::repo::default::DomainStatus", []⟩]

/-- The fields `schema` injects after the user's fields
(lib.rs:129-141). -/
def schema_back_fields : List SField :=
  [⟨some "comment", "Option<String>", []⟩,
   ⟨some "tags", "serde_json::Value", [⟨"sqlx"⟩]⟩,
   ⟨some "sys_detail", "serde_json::Value", [⟨"sqlx"⟩]⟩,
   ⟨some "created_by", "i32", [⟨"locked"⟩]⟩,
   ⟨some "updated_by", "i32", [⟨"locked"⟩]⟩,
   ⟨some "created_at", "chrono::DateTime<chrono::Utc>", [⟨"locked"⟩]⟩,
   ⟨some "updated_at", "chrono::DateTime<chrono::Utc>", [⟨"locked"⟩]⟩]

/-- The `schema` attribute macro (lib.rs:84-150), restricted to the
struct it rebuilds: reject non-named-struct input with a compile error,
otherwise wrap the user's fields (attributes preserved, lib.rs:106-114)
between the injected front and back fields. The rebuilt struct then
derives `MaeRepo`. -/
def schema_expand (ast : SDeriveInput) : Except String SDeriveInput :=
  match ast.data with
  | .structNamed fields =>
      .ok ⟨ast.ident, .structNamed (schema_front_fields ++ fields ++ schema_back_fields)⟩
  | .otherShape _ => .error schema_malformed_msg

/-! ## Spec-side definitions

The following definitions are NOT translations of the source; they
follow the spec's words (§4.2 Policy Classifier and the per-artifact
inclusion rules of §4.4-§4.6) and exist to be compared with the
attribute-blacklist filters the source actually uses. -/

/-- `f` carries an attribute whose path is `s`. -/
def hasAttr (f : SField) (s : String) : Bool :=
  f.attrs.any (fun a => a.isIdent s)

/-- The spec's policy enumeration (§4.2). -/
inductive Policy where
  | locked
  | insertOnly
  | updateOnly
  | mutable
deriving DecidableEq, Repr

/-- Modelled from the spec's words (§4.2 Policy Classifier): `locked`
takes precedence over everything, one explicit tag otherwise, absence
of tags means `Mutable`. -/
def spec_policy (f : SField) : Policy :=
  if hasAttr f "locked" then .locked
  else if hasAttr f "insert_only" then .insertOnly
  else if hasAttr f "update_only" then .updateOnly
  else .mutable

/-- The spec's well-formedness invariant (§4.2): `insert_only` and
`update_only` are mutually exclusive on one field. -/
def well_tagged (f : SField) : Bool :=
  !(hasAttr f "insert_only" && hasAttr f "update_only")

/-- Modelled from the spec's words (§4.5): the insert row includes
exactly the fields whose policy is `Mutable` or `InsertOnly`. -/
def insert_spec_keep (f : SField) : Bool :=
  match spec_policy f with
  | .mutable => true
  | .insertOnly => true
  | _ => false

/-- Modelled from the spec's words (§4.6): the update row includes
exactly the fields whose policy is `Mutable` or `UpdateOnly`. -/
def update_spec_keep (f : SField) : Bool :=
  match spec_policy f with
  | .mutable => true
  | .updateOnly => true
  | _ => false

/-- Modelled from the spec's words (§4.4): the patch builder includes
exactly the fields whose policy is neither `Locked` nor `InsertOnly`. -/
def patch_spec_keep (f : SField) : Bool :=
  match spec_policy f with
  | .locked => false
  | .insertOnly => false
  | _ => true

/-! ## Derived views used in the claim statements -/

/-- Names of the present fields of an update-row instance, in
declaration order. -/
def present_names {α : Type} (inst : List (String × Option α)) : List String :=
  inst.filterMap (fun p => p.2.map (fun _ => p.1))

/-- Values of the present fields of an update-row instance, in
declaration order. -/
def present_vals {α : Type} (inst : List (String × Option α)) : List α :=
  inst.filterMap (fun p => p.2)

/-- Whether the derive input is a struct with named fields. -/
def is_named_record (ast : SDeriveInput) : Bool :=
  match ast.data with
  | .structNamed _ => true
  | .otherShape _ => false

/-- The inputs reachable through `parse_macro_input!`: `syn`'s grammar
for named fields always attaches an ident, so a parsed
`Fields::Named` field list never contains an identless field. -/
def parsed_ok (ast : SDeriveInput) : Bool :=
  match ast.data with
  | .structNamed fields => fields.all (fun f => f.ident.isSome)
  | .otherShape _ => true

/-- The number of placeholder tokens an artifact's `to_sql_parts`
returned: the length of the optional second component, zero when it is
`None`. -/
def placeholder_count (parts : List String × Option (List String)) : Nat :=
  match parts.2 with
  | some l => l.length
  | none => 0

/-- The scenario schema of spec §8:
`{id: Locked, sys_client: InsertOnly, name: Mutable, status: Mutable,
updated_at: Locked}`. -/
def sample_fields : List SField :=
  [⟨some "id", "i32", [⟨"locked"⟩]⟩,
   ⟨some "sys_client", "i32", [⟨"insert_only"⟩]⟩,
   ⟨some "name", "String", []⟩,
   ⟨some "status", "i32", []⟩,
   ⟨some "updated_at", "i64", [⟨"locked"⟩]⟩]

/-- The placeholder tokens one run of the generated counter emits:
`dollar_tokens i k` is `["$(i+1)", "$(i+2)", ..., "$(i+k)"]`. -/
def dollar_tokens : Nat → Nat → List String
  | _, 0 => []
  | i, Nat.succ k => ("$" ++ toString (i + 1)) :: dollar_tokens (i + 1) k

/-- The placeholder numbers behind `dollar_tokens`:
`dense_nums i k = [i+1, ..., i+k]`. -/
def dense_nums : Nat → Nat → List Nat
  | _, 0 => []
  | i, Nat.succ k => (i + 1) :: dense_nums (i + 1) k

/-- Modelled from the spec's words (§4.5): the insert-row builder's
properties are the fields whose policy is `Mutable` or `InsertOnly`,
each required (non-optional). -/
def spec_insert_props (fields : List SField) : List RowProp :=
  (fields.filter insert_spec_keep).filterMap
    (fun f => f.ident.map (fun n => ⟨n, f.ty, false⟩))

/-- Modelled from the spec's words (§4.6): the update-row builder's
properties are the fields whose policy is `Mutable` or `UpdateOnly`,
each optional. -/
def spec_update_props (fields : List SField) : List RowProp :=
  (fields.filter update_spec_keep).filterMap
    (fun f => f.ident.map (fun n => ⟨n, f.ty, true⟩))

/-- Modelled from the spec's words (§4.4): one patch variant per field
whose policy is neither `Locked` nor `InsertOnly`, carrying the field's
declared type. -/
def spec_patch_variants (fields : List SField) : List PatchVariant :=
  (fields.filter patch_spec_keep).filterMap
    (fun f => f.ident.map (fun n => ⟨n, f.ty⟩))

/-! ## Fold characterizations -/

theorem foldl_push_step {A B : Type} (g : A → Option B) (l : List A) :
    ∀ acc : List B, l.foldl (push_step g) acc = acc ++ l.filterMap g := by
  induction l with
  | nil => intro acc; simp
  | cons a t ih =>
      intro acc
      cases h : g a with
      | none => simp [push_step, h, ih, List.filterMap_cons]
      | some b => simp [push_step, h, ih, List.filterMap_cons]

theorem to_patches_variants_eq (fields : List SField) :
    to_patches_variants fields = fields.filterMap patch_variant_of := by
  simp [to_patches_variants, foldl_push_step]

theorem to_row_props_eq (bl : List String) (fields : List SField) :
    to_row_props bl fields = fields.filterMap (row_prop_of bl) := by
  simp [to_row_props, foldl_push_step]

theorem update_bind_eq {α : Type} (inst : List (String × Option α)) :
    update_bind inst = present_vals inst := by
  simp [update_bind, foldl_push_step, present_vals]

theorem insert_bind_foldl {α : Type} (vals : List α) :
    ∀ acc : List α, vals.foldl (fun acc v => acc ++ [v]) acc = acc ++ vals := by
  induction vals with
  | nil => intro acc; simp
  | cons v t ih => intro acc; simp [ih]

theorem insert_bind_eq {α : Type} (vals : List α) : insert_bind vals = vals := by
  simp [insert_bind, insert_bind_foldl]

theorem insert_bind_len_foldl (props : List RowProp) :
    ∀ c : Nat, props.foldl (fun c _ => c + 1) c = c + props.length := by
  induction props with
  | nil => intro c; simp
  | cons p t ih => intro c; simp [ih]; omega

theorem insert_bind_len_eq (props : List RowProp) :
    insert_bind_len props = props.length := by
  simp [insert_bind_len, insert_bind_len_foldl]

theorem count_step_foldl {α : Type} (inst : List (String × Option α)) :
    ∀ c : Nat, inst.foldl count_step c = c + (present_vals inst).length := by
  induction inst with
  | nil => intro c; simp [present_vals]
  | cons p t ih =>
      intro c
      cases hp : p.2 with
      | none => simp [count_step, hp, ih, present_vals, List.filterMap_cons]
      | some v =>
          simp [count_step, hp, ih, present_vals, List.filterMap_cons]
          omega

theorem update_bind_len_eq {α : Type} (inst : List (String × Option α)) :
    update_bind_len inst = (present_vals inst).length := by
  simp [update_bind_len, count_step_foldl]

theorem insert_sql_foldl (names : List String) :
    ∀ (i : Nat) (sql si : List String),
      names.foldl insert_sql_step (i, sql, si)
        = (i + names.length, sql ++ names, si ++ dollar_tokens i names.length) := by
  induction names with
  | nil => intro i sql si; simp [dollar_tokens]
  | cons n t ih =>
      intro i sql si
      simp only [List.foldl_cons, insert_sql_step, List.length_cons]
      rw [ih]
      simp only [Prod.mk.injEq]
      refine ⟨by omega, by simp, by simp [dollar_tokens]⟩

theorem insert_to_sql_parts_eq (names : List String) :
    insert_to_sql_parts names = (names, some (dollar_tokens 0 names.length)) := by
  simp [insert_to_sql_parts, insert_sql_foldl]

theorem row_sql_foldl {α : Type} (inst : List (String × Option α)) :
    ∀ (i : Nat) (sql si : List String),
      inst.foldl row_sql_step (i, sql, si)
        = (i + (present_vals inst).length,
           sql ++ present_names inst,
           si ++ dollar_tokens i (present_vals inst).length) := by
  induction inst with
  | nil => intro i sql si; simp [present_names, present_vals, dollar_tokens]
  | cons p t ih =>
      intro i sql si
      cases hp : p.2 with
      | none =>
          have hstep : row_sql_step (i, sql, si) p = (i, sql, si) := by
            simp [row_sql_step, hp]
          have h1 : present_names (p :: t) = present_names t := by
            simp [present_names, List.filterMap_cons, hp]
          have h2 : present_vals (p :: t) = present_vals t := by
            simp [present_vals, List.filterMap_cons, hp]
          simp only [List.foldl_cons]
          rw [hstep, ih, h1, h2]
      | some v =>
          have hstep : row_sql_step (i, sql, si) p
              = (i + 1, sql ++ [p.1], si ++ ["$" ++ toString (i + 1)]) := by
            simp [row_sql_step, hp]
          have h1 : present_names (p :: t) = p.1 :: present_names t := by
            simp [present_names, List.filterMap_cons, hp]
          have h2 : present_vals (p :: t) = v :: present_vals t := by
            simp [present_vals, List.filterMap_cons, hp]
          simp only [List.foldl_cons]
          rw [hstep, ih, h1, h2]
          simp only [List.length_cons, Prod.mk.injEq]
          refine ⟨by omega, by simp, by simp [dollar_tokens]⟩

theorem update_to_sql_parts_eq {α : Type} (inst : List (String × Option α)) :
    update_to_sql_parts inst
      = (present_names inst, some (dollar_tokens 0 (present_vals inst).length)) := by
  simp [update_to_sql_parts, row_sql_foldl]

/-- `named_cols` abbreviates the declaration-order list of field names. -/
def named_cols (fields : List SField) : List String :=
  fields.filterMap (fun f => f.ident)

/-- The compile-error messages `to_fields` embeds, one per unnamed
field. -/
def unnamed_errors (fields : List SField) : List String :=
  fields.filterMap (fun f =>
    match f.ident with
    | none => some "expected a named field (missing ident)"
    | some _ => none)

theorem to_fields_foldl (fields : List SField) :
    ∀ acc : FieldsOut,
      fields.foldl to_fields_step acc
        = ⟨acc.all_cols ++ named_cols fields,
           acc.variants ++ named_cols fields,
           acc.errors ++ unnamed_errors fields⟩ := by
  induction fields with
  | nil => intro acc; simp [named_cols, unnamed_errors]
  | cons f t ih =>
      intro acc
      cases hf : f.ident with
      | none =>
          have hstep : to_fields_step acc f
              = { acc with errors := acc.errors ++ ["expected a named field (missing ident)"] } := by
            simp [to_fields_step, hf]
          simp only [List.foldl_cons]
          rw [hstep, ih]
          simp [named_cols, unnamed_errors, List.filterMap_cons, hf]
      | some n =>
          have hstep : to_fields_step acc f
              = { acc with all_cols := acc.all_cols ++ [n], variants := acc.variants ++ [n] } := by
            simp [to_fields_step, hf]
          simp only [List.foldl_cons]
          rw [hstep, ih]
          simp [named_cols, unnamed_errors, List.filterMap_cons, hf]

theorem to_fields_out_eq (fields : List SField) :
    to_fields_out fields
      = ⟨named_cols fields, named_cols fields, unnamed_errors fields⟩ := by
  simp [to_fields_out, to_fields_foldl]

/-! ## Dense numbering facts -/

theorem dollar_tokens_eq_map (k : Nat) :
    ∀ i : Nat, dollar_tokens i k = (dense_nums i k).map (fun n => "$" ++ toString n) := by
  induction k with
  | zero => intro i; simp [dollar_tokens, dense_nums]
  | succ k ih => intro i; simp [dollar_tokens, dense_nums, ih]

theorem dense_nums_eq_range (k : Nat) :
    ∀ i : Nat, dense_nums i k = (List.range k).map (fun j => i + j + 1) := by
  induction k with
  | zero => intro i; simp [dense_nums]
  | succ k ih =>
      intro i
      rw [show dense_nums i (k + 1) = (i + 1) :: dense_nums (i + 1) k from rfl,
          List.range_succ_eq_map, List.map_cons, List.map_map]
      simp only [List.cons.injEq]
      refine ⟨by simp, ?_⟩
      rw [ih (i + 1)]
      apply List.map_congr_left
      intro j _
      simp only [Function.comp_apply, Nat.succ_eq_add_one]
      congr 1
      omega

theorem dense_nums_length (k : Nat) : ∀ i : Nat, (dense_nums i k).length = k := by
  induction k with
  | zero => intro i; simp [dense_nums]
  | succ k ih => intro i; simp [dense_nums, ih]

theorem dense_nums_mem_gt (k : Nat) :
    ∀ i n : Nat, n ∈ dense_nums i k → i < n := by
  induction k with
  | zero => intro i n h; simp [dense_nums] at h
  | succ k ih =>
      intro i n h
      simp only [dense_nums, List.mem_cons] at h
      cases h with
      | inl h => omega
      | inr h => have := ih (i + 1) n h; omega

theorem dense_nums_pairwise_lt (k : Nat) :
    ∀ i : Nat, List.Pairwise (· < ·) (dense_nums i k) := by
  induction k with
  | zero => intro i; simp [dense_nums]
  | succ k ih =>
      intro i
      refine List.Pairwise.cons ?_ (ih (i + 1))
      intro n hn
      exact dense_nums_mem_gt k (i + 1) n hn

/-! ## Relating the attribute blacklists to the spec's policies -/

theorem all_two_neg (l : List Attr) (p q : String) :
    (l.all (fun a => !(a.isIdent p) && !(a.isIdent q)))
      = ((!(l.any (fun a => a.isIdent p))) && (!(l.any (fun a => a.isIdent q)))) := by
  induction l with
  | nil => rfl
  | cons a t ih =>
      simp only [List.all_cons, List.any_cons, ih, Bool.not_or]
      cases a.isIdent p <;> cases a.isIdent q <;> simp

theorem row_field_keep_insert (f : SField) :
    row_field_keep insert_black_list f
      = ((!(hasAttr f "locked")) && (!(hasAttr f "update_only"))) := by
  have h : row_field_keep insert_black_list f
      = f.attrs.all (fun a => !(a.isIdent "locked") && !(a.isIdent "update_only")) := by
    simp [row_field_keep, insert_black_list]
  rw [h, all_two_neg]
  rfl

theorem row_field_keep_update (f : SField) :
    row_field_keep update_black_list f
      = ((!(hasAttr f "locked")) && (!(hasAttr f "insert_only"))) := by
  have h : row_field_keep update_black_list f
      = f.attrs.all (fun a => !(a.isIdent "locked") && !(a.isIdent "insert_only")) := by
    simp [row_field_keep, update_black_list]
  rw [h, all_two_neg]
  rfl

theorem patch_field_keep_eq (f : SField) :
    patch_field_keep f
      = ((!(hasAttr f "locked")) && (!(hasAttr f "insert_only"))) := by
  rw [patch_field_keep, all_two_neg]
  rfl

theorem insert_keep_eq_spec (f : SField) (hw : well_tagged f = true) :
    row_field_keep insert_black_list f = insert_spec_keep f := by
  rw [row_field_keep_insert]
  cases hL : hasAttr f "locked" <;> cases hI : hasAttr f "insert_only" <;>
    cases hU : hasAttr f "update_only" <;>
    simp_all [insert_spec_keep, spec_policy, well_tagged]

theorem update_keep_eq_spec (f : SField) (hw : well_tagged f = true) :
    row_field_keep update_black_list f = update_spec_keep f := by
  rw [row_field_keep_update]
  cases hL : hasAttr f "locked" <;> cases hI : hasAttr f "insert_only" <;>
    cases hU : hasAttr f "update_only" <;>
    simp_all [update_spec_keep, spec_policy, well_tagged]

theorem patch_keep_eq_spec (f : SField) :
    patch_field_keep f = patch_spec_keep f := by
  rw [patch_field_keep_eq]
  cases hL : hasAttr f "locked" <;> cases hI : hasAttr f "insert_only" <;>
    cases hU : hasAttr f "update_only" <;>
    simp_all [patch_spec_keep, spec_policy]

theorem filterMap_if {A B : Type} (p : A → Bool) (h : A → Option B)
    (g : A → Option B) (l : List A)
    (hg : ∀ a ∈ l, g a = if p a then h a else none) :
    l.filterMap g = (l.filter p).filterMap h := by
  induction l with
  | nil => simp
  | cons a t ih =>
      have ha := hg a (by simp)
      have ht : ∀ x ∈ t, g x = if p x then h x else none := by
        intro x hx
        exact hg x (by simp [hx])
      cases hp : p a with
      | false =>
          rw [List.filterMap_cons, ha, hp]
          simp [List.filter_cons, hp, ih ht]
      | true =>
          rw [List.filterMap_cons, ha, hp]
          simp only [if_true]
          cases hb : h a with
          | none => simp [List.filter_cons, hp, List.filterMap_cons, hb, ih ht]
          | some b => simp [List.filter_cons, hp, List.filterMap_cons, hb, ih ht]

theorem insert_props_eq_spec (fields : List SField)
    (hw : ∀ f ∈ fields, well_tagged f = true) :
    to_row_props insert_black_list fields = spec_insert_props fields := by
  rw [to_row_props_eq, spec_insert_props]
  apply filterMap_if
  intro f hf
  rw [show row_prop_of insert_black_list f
      = (match f.ident with
         | some n =>
             if row_field_keep insert_black_list f then some ⟨n, f.ty, false⟩ else none
         | none => none) from by
    simp only [row_prop_of]
    cases f.ident <;> simp [to_row_is_insert, insert_black_list]]
  rw [insert_keep_eq_spec f (hw f hf)]
  cases hf2 : f.ident <;> cases hk : insert_spec_keep f <;> simp [hf2, hk]

theorem update_props_eq_spec (fields : List SField)
    (hw : ∀ f ∈ fields, well_tagged f = true) :
    to_row_props update_black_list fields = spec_update_props fields := by
  rw [to_row_props_eq, spec_update_props]
  apply filterMap_if
  intro f hf
  rw [show row_prop_of update_black_list f
      = (match f.ident with
         | some n =>
             if row_field_keep update_black_list f then some ⟨n, f.ty, true⟩ else none
         | none => none) from by
    simp only [row_prop_of]
    cases f.ident <;> simp [to_row_is_insert, update_black_list]]
  rw [update_keep_eq_spec f (hw f hf)]
  cases hf2 : f.ident <;> cases hk : update_spec_keep f <;> simp [hf2, hk]

theorem patch_variants_eq_spec (fields : List SField) :
    to_patches_variants fields = spec_patch_variants fields := by
  rw [to_patches_variants_eq, spec_patch_variants]
  apply filterMap_if
  intro f _
  rw [show patch_variant_of f
      = (match f.ident with
         | some n => if patch_field_keep f then some ⟨n, f.ty⟩ else none
         | none => none) from rfl]
  rw [patch_keep_eq_spec f]
  cases hf2 : f.ident <;> cases hk : patch_spec_keep f <;> simp [hf2, hk]

theorem dollar_tokens_length (k : Nat) : ∀ i : Nat, (dollar_tokens i k).length = k := by
  induction k with
  | zero => intro i; simp [dollar_tokens]
  | succ k ih => intro i; simp [dollar_tokens, ih]

theorem insert_props_not_optional (fields : List SField) :
    (to_row_props insert_black_list fields).all (fun p => !p.optional) = true := by
  rw [List.all_eq_true]
  intro p hp
  rw [to_row_props_eq] at hp
  rcases List.mem_filterMap.mp hp with ⟨f, _, hpf⟩
  cases hid : f.ident with
  | none =>
      rw [show row_prop_of insert_black_list f = none from by simp [row_prop_of, hid]] at hpf
      exact absurd hpf (by simp)
  | some n =>
      by_cases hk : row_field_keep insert_black_list f = true
      · rw [show row_prop_of insert_black_list f
            = some ⟨n, f.ty, !(to_row_is_insert insert_black_list)⟩ from by
          simp [row_prop_of, hid, hk]] at hpf
        rw [Option.some_inj] at hpf
        rw [← hpf]
        rfl
      · rw [show row_prop_of insert_black_list f = none from by
          simp [row_prop_of, hid, hk]] at hpf
        exact absurd hpf (by simp)

theorem update_props_optional (fields : List SField) :
    (to_row_props update_black_list fields).all (fun p => p.optional) = true := by
  rw [List.all_eq_true]
  intro p hp
  rw [to_row_props_eq] at hp
  rcases List.mem_filterMap.mp hp with ⟨f, _, hpf⟩
  cases hid : f.ident with
  | none =>
      rw [show row_prop_of update_black_list f = none from by simp [row_prop_of, hid]] at hpf
      exact absurd hpf (by simp)
  | some n =>
      by_cases hk : row_field_keep update_black_list f = true
      · rw [show row_prop_of update_black_list f
            = some ⟨n, f.ty, !(to_row_is_insert update_black_list)⟩ from by
          simp [row_prop_of, hid, hk]] at hpf
        rw [Option.some_inj] at hpf
        rw [← hpf]
        rfl
      · rw [show row_prop_of update_black_list f = none from by
          simp [row_prop_of, hid, hk]] at hpf
        exact absurd hpf (by simp)

/-! ## Claim C1 -/

/-- Claim C1: for every Schema Definition the insert-row builder
(`InsertRow`) includes exactly the fields whose policy is `Mutable` or
`InsertOnly` (excluding `Locked` and `UpdateOnly`); every included
field is required (non-optional); `to_sql_parts` walks the included
fields in declaration order emitting column tokens and placeholder
tokens numbered sequentially from 1; the bind sequence is the field
values in the same order (placeholder k corresponds to bind element k);
and `bind_len` is the static count of included fields, independent of
runtime values. The schema is well-tagged as the spec's data-model
invariant requires (no field carries both `insert_only` and
`update_only`). -/
theorem C1_insert_row_lockstep {α : Type} (fields : List SField) (vals : List α)
    (hw : fields.all well_tagged = true) :
    to_row_props insert_black_list fields = spec_insert_props fields
    ∧ (to_row_props insert_black_list fields).all (fun p => !p.optional) = true
    ∧ insert_to_sql_parts ((to_row_props insert_black_list fields).map (fun p => p.name))
        = ((to_row_props insert_black_list fields).map (fun p => p.name),
           some (dollar_tokens 0 (to_row_props insert_black_list fields).length))
    ∧ dollar_tokens 0 (to_row_props insert_black_list fields).length
        = (dense_nums 0 (to_row_props insert_black_list fields).length).map
            (fun n => "$" ++ toString n)
    ∧ dense_nums 0 (to_row_props insert_black_list fields).length
        = (List.range (to_row_props insert_black_list fields).length).map (fun j => j + 1)
    ∧ insert_bind vals = vals
    ∧ insert_bind_len (to_row_props insert_black_list fields)
        = (to_row_props insert_black_list fields).length := by
  have hw2 : ∀ f ∈ fields, well_tagged f = true := fun f hf => List.all_eq_true.mp hw f hf
  refine ⟨insert_props_eq_spec fields hw2, insert_props_not_optional fields, ?_,
    dollar_tokens_eq_map _ 0, ?_, insert_bind_eq vals, insert_bind_len_eq _⟩
  · rw [insert_to_sql_parts_eq, List.length_map]
  · rw [dense_nums_eq_range]
    apply List.map_congr_left
    intro j _
    omega

theorem C1_insert_row_lockstep_witness :
    sample_fields.all well_tagged = true
    ∧ (to_row_props insert_black_list sample_fields = spec_insert_props sample_fields
       ∧ (to_row_props insert_black_list sample_fields).all (fun p => !p.optional) = true
       ∧ insert_to_sql_parts ((to_row_props insert_black_list sample_fields).map (fun p => p.name))
           = ((to_row_props insert_black_list sample_fields).map (fun p => p.name),
              some (dollar_tokens 0 (to_row_props insert_black_list sample_fields).length))
       ∧ dollar_tokens 0 (to_row_props insert_black_list sample_fields).length
           = (dense_nums 0 (to_row_props insert_black_list sample_fields).length).map
               (fun n => "$" ++ toString n)
       ∧ dense_nums 0 (to_row_props insert_black_list sample_fields).length
           = (List.range (to_row_props insert_black_list sample_fields).length).map (fun j => j + 1)
       ∧ insert_bind [10, 20, 30] = [10, 20, 30]
       ∧ insert_bind_len (to_row_props insert_black_list sample_fields)
           = (to_row_props insert_black_list sample_fields).length) :=
  ⟨by decide, C1_insert_row_lockstep sample_fields [10, 20, 30] (by decide)⟩

/-! ## Claim C2 -/

/-- Claim C2: for every Schema Definition the update-row builder
(`UpdateRow`) includes exactly the fields whose policy is `Mutable` or
`UpdateOnly` (excluding `Locked` and `InsertOnly`); every included
field is optional; and for every instance (a list pairing the struct's
properties in declaration order with their optional values, cf.
`update_instance`), `bind_len` is the runtime count of present fields,
the placeholder tokens of `to_sql_parts` are numbered by a counter that
increments only on present fields starting at 1 — so the emitted
numbers are `[1, ..., bind_len]`: dense, gap-free with respect to the
bind sequence, injective and strictly increasing in declaration
order — and the bind sequence is the present values in the same
order. -/
theorem C2_update_row_dense {α : Type} (fields : List SField)
    (inst : List (String × Option α)) (hw : fields.all well_tagged = true) :
    to_row_props update_black_list fields = spec_update_props fields
    ∧ (to_row_props update_black_list fields).all (fun p => p.optional) = true
    ∧ update_bind_len inst = (present_vals inst).length
    ∧ update_to_sql_parts inst
        = (present_names inst, some (dollar_tokens 0 (update_bind_len inst)))
    ∧ dollar_tokens 0 (update_bind_len inst)
        = (dense_nums 0 (update_bind_len inst)).map (fun n => "$" ++ toString n)
    ∧ dense_nums 0 (update_bind_len inst)
        = (List.range (update_bind_len inst)).map (fun j => j + 1)
    ∧ List.Pairwise (· < ·) (dense_nums 0 (update_bind_len inst))
    ∧ update_bind inst = present_vals inst := by
  have hw2 : ∀ f ∈ fields, well_tagged f = true := fun f hf => List.all_eq_true.mp hw f hf
  refine ⟨update_props_eq_spec fields hw2, update_props_optional fields,
    update_bind_len_eq inst, ?_, dollar_tokens_eq_map _ 0, ?_,
    dense_nums_pairwise_lt _ 0, update_bind_eq inst⟩
  · rw [update_to_sql_parts_eq, update_bind_len_eq]
  · rw [dense_nums_eq_range]
    apply List.map_congr_left
    intro j _
    omega

theorem C2_update_row_dense_witness :
    sample_fields.all well_tagged = true
    ∧ (to_row_props update_black_list sample_fields = spec_update_props sample_fields
       ∧ (to_row_props update_black_list sample_fields).all (fun p => p.optional) = true
       ∧ update_bind_len (update_instance (to_row_props update_black_list sample_fields)
             [none, some 7])
           = (present_vals (update_instance (to_row_props update_black_list sample_fields)
               [none, some 7])).length
       ∧ update_to_sql_parts (update_instance (to_row_props update_black_list sample_fields)
             [none, some 7])
           = (present_names (update_instance (to_row_props update_black_list sample_fields)
               [none, some 7]),
              some (dollar_tokens 0 (update_bind_len
                (update_instance (to_row_props update_black_list sample_fields)
                  [none, some 7]))))
       ∧ dollar_tokens 0 (update_bind_len
             (update_instance (to_row_props update_black_list sample_fields) [none, some 7]))
           = (dense_nums 0 (update_bind_len
               (update_instance (to_row_props update_black_list sample_fields)
                 [none, some 7]))).map (fun n => "$" ++ toString n)
       ∧ dense_nums 0 (update_bind_len
             (update_instance (to_row_props update_black_list sample_fields) [none, some 7]))
           = (List.range (update_bind_len
               (update_instance (to_row_props update_black_list sample_fields)
                 [none, some 7]))).map (fun j => j + 1)
       ∧ List.Pairwise (· < ·) (dense_nums 0 (update_bind_len
           (update_instance (to_row_props update_black_list sample_fields) [none, some 7])))
       ∧ update_bind (update_instance (to_row_props update_black_list sample_fields)
             [none, some 7])
           = present_vals (update_instance (to_row_props update_black_list sample_fields)
               [none, some 7])) :=
  ⟨by decide,
   C2_update_row_dense sample_fields
     (update_instance (to_row_props update_black_list sample_fields) [none, some 7])
     (by decide)⟩

/-! ## Claim C3 -/

/-- Claim C3 as stated is false at a concrete `PatchField` instance:
the generated `to_sql_parts` returns `(vec![name], None)` — zero
placeholder tokens — while `bind_len` is 1 (util.rs:76-93, whose own
comment says the bind index cannot be produced there and must be caught
at a higher level). -/
theorem C3_bind_placeholder_cex :
    placeholder_count (patch_to_sql_parts ⟨"name", "String"⟩) = 0
    ∧ patch_bind_len ⟨"name", "String"⟩ = 1
    ∧ ¬ (patch_bind_len ⟨"name", "String"⟩
          = placeholder_count (patch_to_sql_parts ⟨"name", "String"⟩)) := by
  refine ⟨rfl, rfl, by decide⟩

/-- Claim C3 amended: for `InsertRow` and `UpdateRow` instances,
`bind_len` equals the number of placeholder tokens returned by
`to_sql_parts` and the bind order matches the left-to-right placeholder
order (the k-th placeholder is emitted for the same field whose value
is the k-th bind element); `PatchField` and `Field` return no
placeholder list from `to_sql_parts` — `PatchField` binds exactly its
one carried value with `bind_len` 1 (placeholder indexing deferred to a
higher level), and `Field` implements no binding at all. -/
theorem C3_bind_contract {α : Type} (props : List RowProp) (vals : List α)
    (inst : List (String × Option α)) (fields : List SField)
    (v : PatchVariant) (a : α) (s : FieldSel)
    (hlen : vals.length = props.length) :
    placeholder_count (insert_to_sql_parts (props.map (fun p => p.name)))
        = insert_bind_len props
    ∧ (insert_to_sql_parts (props.map (fun p => p.name))).1
        = props.map (fun p => p.name)
    ∧ insert_bind vals = vals
    ∧ (insert_bind vals).length = insert_bind_len props
    ∧ placeholder_count (update_to_sql_parts inst) = update_bind_len inst
    ∧ (update_to_sql_parts inst).1 = present_names inst
    ∧ update_bind inst = present_vals inst
    ∧ (update_bind inst).length = update_bind_len inst
    ∧ (patch_to_sql_parts v).2 = none
    ∧ patch_bind_len v = 1
    ∧ patch_bind (v, a) = [a]
    ∧ (field_to_sql_parts fields s).2 = none := by
  refine ⟨?_, ?_, insert_bind_eq vals, ?_, ?_, ?_, update_bind_eq inst, ?_, rfl, rfl, rfl, rfl⟩
  · rw [insert_to_sql_parts_eq]
    simp [placeholder_count, dollar_tokens_length, insert_bind_len_eq]
  · rw [insert_to_sql_parts_eq]
  · rw [insert_bind_eq, insert_bind_len_eq, hlen]
  · rw [update_to_sql_parts_eq]
    simp [placeholder_count, dollar_tokens_length, update_bind_len_eq]
  · rw [update_to_sql_parts_eq]
  · rw [update_bind_eq, update_bind_len_eq]

theorem C3_bind_contract_witness :
    ([3, 4, 5] : List Nat).length = (to_row_props insert_black_list sample_fields).length
    ∧ (placeholder_count (insert_to_sql_parts
           ((to_row_props insert_black_list sample_fields).map (fun p => p.name)))
         = insert_bind_len (to_row_props insert_black_list sample_fields)
       ∧ (insert_to_sql_parts
           ((to_row_props insert_black_list sample_fields).map (fun p => p.name))).1
         = (to_row_props insert_black_list sample_fields).map (fun p => p.name)
       ∧ insert_bind [3, 4, 5] = [3, 4, 5]
       ∧ (insert_bind [3, 4, 5]).length
           = insert_bind_len (to_row_props insert_black_list sample_fields)
       ∧ placeholder_count (update_to_sql_parts [("name", some 1), ("status", none)])
           = update_bind_len [("name", some 1), ("status", none)]
       ∧ (update_to_sql_parts [("name", some 1), ("status", none)]).1
           = present_names [("name", some 1), ("status", none)]
       ∧ update_bind [("name", some 1), ("status", none)]
           = present_vals [("name", some 1), ("status", none)]
       ∧ (update_bind [("name", some 1), ("status", none)]).length
           = update_bind_len [("name", some 1), ("status", none)]
       ∧ (patch_to_sql_parts ⟨"name", "String"⟩).2 = none
       ∧ patch_bind_len ⟨"name", "String"⟩ = 1
       ∧ patch_bind (⟨"name", "String"⟩, 9) = [9]
       ∧ (field_to_sql_parts sample_fields FieldSel.All).2 = none) :=
  ⟨by decide,
   C3_bind_contract (to_row_props insert_black_list sample_fields)
     [3, 4, 5] [("name", some 1), ("status", none)] sample_fields
     ⟨"name", "String"⟩ 9 FieldSel.All (by decide)⟩

/-! ## Claim C4 -/

/-- A field carrying both mutually-exclusive policy tags. -/
def both_tags_field : SField :=
  ⟨some "x", "i32", [⟨"insert_only"⟩, ⟨"update_only"⟩]⟩

/-- A Schema Definition containing `both_tags_field`. -/
def both_tags_input : SDeriveInput :=
  ⟨"Conflicted", .structNamed [both_tags_field]⟩

/-- Claim C4 as stated is false: a Schema Definition with a field
carrying both `insert_only` and `update_only` does NOT fail generation
with `MalformedSchema` — `derive_mae_repo` performs no mutual-exclusion
check and succeeds, silently omitting the field from `InsertRow`,
`UpdateRow` and `PatchField` (it remains a `Field` column). -/
theorem C4_both_tags_cex :
    derive_mae_repo both_tags_input
      = .ok { artifact_idents := ["Field", "InsertRow", "UpdateRow", "PatchField"]
            , fields_out := ⟨["x"], ["x"], []⟩
            , insert_props := []
            , update_props := []
            , patch_variants := [] } := by
  rfl

/-- Claim C4 corrected: a Schema Definition with a field carrying both
`insert_only` and `update_only` is not rejected — generation succeeds,
and the conflicted field is silently excluded from the insert-row,
update-row and patch builders (no property and no variant is generated
for it) while it still appears among the `Field` enumerator's
variants. -/
theorem C4_both_tags_silent (s n : String) (fields : List SField) (f : SField)
    (hmem : f ∈ fields) (hname : f.ident = some n)
    (hins : hasAttr f "insert_only" = true) (hupd : hasAttr f "update_only" = true) :
    (derive_mae_repo ⟨s, .structNamed fields⟩).isOk = true
    ∧ row_prop_of insert_black_list f = none
    ∧ row_prop_of update_black_list f = none
    ∧ patch_variant_of f = none
    ∧ n ∈ (to_fields_out fields).variants := by
  refine ⟨rfl, ?_, ?_, ?_, ?_⟩
  · have hk : row_field_keep insert_black_list f = false := by
      rw [row_field_keep_insert, hupd]
      simp
    simp [row_prop_of, hname, hk]
  · have hk : row_field_keep update_black_list f = false := by
      rw [row_field_keep_update, hins]
      simp
    simp [row_prop_of, hname, hk]
  · have hk : patch_field_keep f = false := by
      rw [patch_field_keep_eq, hins]
      simp
    simp [patch_variant_of, hname, hk]
  · rw [to_fields_out_eq]
    exact List.mem_filterMap.mpr ⟨f, hmem, hname⟩

theorem C4_both_tags_silent_witness :
    both_tags_field ∈ [both_tags_field]
    ∧ both_tags_field.ident = some "x"
    ∧ hasAttr both_tags_field "insert_only" = true
    ∧ hasAttr both_tags_field "update_only" = true
    ∧ ((derive_mae_repo ⟨"Conflicted", .structNamed [both_tags_field]⟩).isOk = true
       ∧ row_prop_of insert_black_list both_tags_field = none
       ∧ row_prop_of update_black_list both_tags_field = none
       ∧ patch_variant_of both_tags_field = none
       ∧ "x" ∈ (to_fields_out [both_tags_field]).variants) :=
  ⟨by decide, by decide, by decide, by decide,
   C4_both_tags_silent "Conflicted" "x" [both_tags_field] both_tags_field
     (by decide) (by decide) (by decide) (by decide)⟩

/-! ## Claim C5 -/

/-- Claim C5 as stated is false: generation emits four derived
artifacts, not five — there is no Filter-Row-Builder `Row` in the
emitted set (inside `to_row`, `Row` is only the fallback name of the
shape-error branch, never an emitted artifact). -/
theorem C5_four_not_five_cex :
    derive_artifact_idents ⟨"CoreUser", .structNamed sample_fields⟩
      = ["Field", "InsertRow", "UpdateRow", "PatchField"]
    ∧ ¬ ((derive_artifact_idents ⟨"CoreUser", .structNamed sample_fields⟩).length = 5
         ∧ "Row" ∈ derive_artifact_idents ⟨"CoreUser", .structNamed sample_fields⟩) := by
  refine ⟨rfl, by decide⟩

/-- Claim C5 amended: generation emits exactly four derived artifacts
per Schema Definition — `Field`, `InsertRow`, `UpdateRow`, `PatchField`
in emission order — and no Filter-Row-Builder `Row`; the dense,
present-only placeholder numbering starting at 1 is the one the
update-row builder provides. -/
theorem C5_four_artifacts {α : Type} (i : String) (fields : List SField)
    (inst : List (String × Option α)) :
    derive_artifact_idents ⟨i, .structNamed fields⟩
      = ["Field", "InsertRow", "UpdateRow", "PatchField"]
    ∧ (derive_artifact_idents ⟨i, .structNamed fields⟩).length = 4
    ∧ "Row" ∉ derive_artifact_idents ⟨i, .structNamed fields⟩
    ∧ update_to_sql_parts inst
        = (present_names inst, some (dollar_tokens 0 (present_vals inst).length)) := by
  have h1 : derive_artifact_idents ⟨i, .structNamed fields⟩
      = ["Field", "InsertRow", "UpdateRow", "PatchField"] := rfl
  refine ⟨h1, by rw [h1]; rfl, by rw [h1]; decide, update_to_sql_parts_eq inst⟩

/-! ## Claim C6 -/

/-- Claim C6: the patch builder has exactly one variant per field whose
policy is neither `Locked` nor `InsertOnly`, each variant carrying one
value of the field's declared type; a `Locked` or `InsertOnly` field
generates no variant at all, so the exclusion is structural (there is
no constructor to call); and `bind_len` is exactly 1 for every
instance. -/
theorem C6_patch_builder {α : Type} (fields : List SField) (f : SField)
    (v : PatchVariant) (a : α)
    (hpol : patch_spec_keep f = false) :
    to_patches_variants fields = spec_patch_variants fields
    ∧ patch_variant_of f = none
    ∧ patch_bind_len v = 1
    ∧ patch_bind (v, a) = [a] := by
  refine ⟨patch_variants_eq_spec fields, ?_, rfl, rfl⟩
  have hk : patch_field_keep f = false := by rw [patch_keep_eq_spec, hpol]
  cases hid : f.ident with
  | none => simp [patch_variant_of, hid]
  | some n => simp [patch_variant_of, hid, hk]

theorem C6_patch_builder_witness :
    patch_spec_keep ⟨some "id", "i32", [⟨"locked"⟩]⟩ = false
    ∧ (to_patches_variants sample_fields = spec_patch_variants sample_fields
       ∧ patch_variant_of ⟨some "id", "i32", [⟨"locked"⟩]⟩ = none
       ∧ patch_bind_len ⟨"name", "String"⟩ = 1
       ∧ patch_bind (⟨"name", "String"⟩, (5 : Nat)) = [5]) :=
  ⟨by decide,
   C6_patch_builder sample_fields ⟨some "id", "i32", [⟨"locked"⟩]⟩
     ⟨"name", "String"⟩ (5 : Nat) (by decide)⟩

/-! ## Claim C7 -/

/-- Claim C7: the column enumerator has one variant per column
regardless of policy — stripping every attribute from every field
leaves the variant list unchanged — plus the synthetic `All` variant;
`All` renders to the comma-joined list of every field name in
declaration order, and every other variant renders to its own bare
field name. -/
theorem C7_column_enumerator (fields : List SField) (n : String) :
    (to_fields_out fields).variants = named_cols fields
    ∧ (to_fields_out (fields.map (fun f => ⟨f.ident, f.ty, []⟩))).variants
        = (to_fields_out fields).variants
    ∧ field_display fields FieldSel.All = String.intercalate ", " (named_cols fields)
    ∧ field_display fields (FieldSel.col n) = n
    ∧ field_to_sql_parts fields (FieldSel.col n) = ([n], none) := by
  refine ⟨?_, ?_, ?_, rfl, rfl⟩
  · rw [to_fields_out_eq]
  · rw [to_fields_out_eq, to_fields_out_eq]
    show named_cols (fields.map (fun f => ⟨f.ident, f.ty, []⟩)) = named_cols fields
    rw [named_cols, named_cols, List.filterMap_map]
    rfl
  · show String.intercalate ", " (to_fields_out fields).all_cols = _
    rw [to_fields_out_eq]

/-! ## Claim C8 -/

/-- Claim C8: on the inputs reachable through `syn` parsing
(`parsed_ok`), schema generation succeeds exactly when the definition
is a plain field-record with named fields; any other shape (enum,
tuple-style — which is also the only way a field can lack a name) is
rejected by both the `schema` attribute macro and the `MaeRepo` derive
with their malformed-schema diagnostics, producing no artifacts at all;
and a successful run embeds no field-level compile errors, so no
partial artifact set is ever emitted. -/
theorem C8_shape_check (ast : SDeriveInput) (h : parsed_ok ast = true) :
    (derive_mae_repo ast).isOk = is_named_record ast
    ∧ (schema_expand ast).isOk = is_named_record ast
    ∧ (is_named_record ast = false →
        derive_mae_repo ast = .error derive_malformed_msg
        ∧ schema_expand ast = .error schema_malformed_msg)
    ∧ derive_field_errors ast = [] := by
  obtain ⟨i, d⟩ := ast
  cases d with
  | otherShape s =>
      exact ⟨rfl, rfl, fun _ => ⟨rfl, rfl⟩, rfl⟩
  | structNamed fields =>
      refine ⟨rfl, rfl, ?_, ?_⟩
      · intro hc
        exact absurd hc (by simp [is_named_record])
      show (to_fields_out fields).errors = []
      rw [to_fields_out_eq]
      show unnamed_errors fields = []
      rw [unnamed_errors, List.filterMap_eq_nil_iff]
      intro f hf
      have hall : fields.all (fun f => f.ident.isSome) = true := h
      have hs := List.all_eq_true.mp hall f hf
      cases hid : f.ident with
      | none => rw [hid] at hs; exact absurd hs (by simp)
      | some m => simp [hid]

theorem C8_shape_check_witness :
    parsed_ok ⟨"NotAStruct", .otherShape "enum"⟩ = true
    ∧ ((derive_mae_repo ⟨"NotAStruct", .otherShape "enum"⟩).isOk
         = is_named_record ⟨"NotAStruct", .otherShape "enum"⟩
       ∧ (schema_expand ⟨"NotAStruct", .otherShape "enum"⟩).isOk
         = is_named_record ⟨"NotAStruct", .otherShape "enum"⟩
       ∧ (is_named_record ⟨"NotAStruct", .otherShape "enum"⟩ = false →
           derive_mae_repo ⟨"NotAStruct", .otherShape "enum"⟩
             = .error derive_malformed_msg
           ∧ schema_expand ⟨"NotAStruct", .otherShape "enum"⟩
             = .error schema_malformed_msg)
       ∧ derive_field_errors ⟨"NotAStruct", .otherShape "enum"⟩ = []) :=
  ⟨rfl, C8_shape_check ⟨"NotAStruct", .otherShape "enum"⟩ rfl⟩

/-! ## Claim C9 -/

/-- Claim C9: the `schema` attribute macro rebuilds every accepted
struct with a fixed set of injected fields around the user's fields —
`id` (`Locked`), `sys_client` (`InsertOnly`) and `status` (`Mutable`)
before them; `comment`, `tags`, `sys_detail` (all `Mutable`) and the
`Locked` `created_by`, `updated_by`, `created_at`, `updated_at` after
them — and, in the derived artifacts of the rebuilt struct, the
injected columns participate according to those policies: the
insert-row gains `sys_client`, `status`, `comment`, `tags`,
`sys_detail`, the update-row and patch builder gain `status`,
`comment`, `tags`, `sys_detail`, and the column enumerator gains all
ten. -/
theorem C9_injected_fields (i : String) (fields : List SField) :
    schema_expand ⟨i, .structNamed fields⟩
      = .ok ⟨i, .structNamed (schema_front_fields ++ fields ++ schema_back_fields)⟩
    ∧ schema_front_fields.map spec_policy = [.locked, .insertOnly, .mutable]
    ∧ schema_back_fields.map spec_policy
        = [.mutable, .mutable, .mutable, .locked, .locked, .locked, .locked]
    ∧ named_cols schema_front_fields = ["id", "sys_client", "status"]
    ∧ named_cols schema_back_fields
        = ["comment", "tags", "sys_detail", "created_by", "updated_by", "created_at",
           "updated_at"]
    ∧ to_row_props insert_black_list (schema_front_fields ++ fields ++ schema_back_fields)
        = ([⟨"sys_client", "i32", false⟩,
            ⟨"status", "mae::repo::default::DomainStatus", false⟩] : List RowProp)
          ++ to_row_props insert_black_list fields
          ++ [⟨"comment", "Option<String>", false⟩, ⟨"tags", "serde_json::Value", false⟩,
              ⟨"sys_detail", "serde_json::Value", false⟩]
    ∧ to_row_props update_black_list (schema_front_fields ++ fields ++ schema_back_fields)
        = ([⟨"status", "mae::repo::default::DomainStatus", true⟩] : List RowProp)
          ++ to_row_props update_black_list fields
          ++ [⟨"comment", "Option<String>", true⟩, ⟨"tags", "serde_json::Value", true⟩,
              ⟨"sys_detail", "serde_json::Value", true⟩]
    ∧ to_patches_variants (schema_front_fields ++ fields ++ schema_back_fields)
        = ([⟨"status", "mae::repo::default::DomainStatus"⟩] : List PatchVariant)
          ++ to_patches_variants fields
          ++ [⟨"comment", "Option<String>"⟩, ⟨"tags", "serde_json::Value"⟩,
              ⟨"sys_detail", "serde_json::Value"⟩]
    ∧ named_cols (schema_front_fields ++ fields ++ schema_back_fields)
        = ["id", "sys_client", "status"] ++ named_cols fields
          ++ ["comment", "tags", "sys_detail", "created_by", "updated_by", "created_at",
              "updated_at"] := by
  refine ⟨rfl, by decide, by decide, by decide, by decide, ?_, ?_, ?_, ?_⟩
  · simp only [to_row_props_eq, List.filterMap_append]
    rfl
  · simp only [to_row_props_eq, List.filterMap_append]
    rfl
  · simp only [to_patches_variants_eq, List.filterMap_append]
    rfl
  · simp only [named_cols, List.filterMap_append]
    rfl

/-! ## Claim C10 -/

/-- Claim C10: field inclusion in the emitted builders is decided
solely by the presence of an attribute whose path equals a blacklisted
tag name (`locked` / `insert_only` for `PatchField` and `UpdateRow`,
`locked` / `update_only` for `InsertRow`); appending any attribute with
a different path (e.g. `sqlx` or `serde`) never changes a field's
inclusion, and a field with no attributes is included in `PatchField`,
`InsertRow` and `UpdateRow` alike. -/
theorem C10_attr_blacklists (f g : SField) (a : Attr) (fields : List SField) (n : String)
    (h1 : (a.path == "locked") = false)
    (h2 : (a.path == "insert_only") = false)
    (h3 : (a.path == "update_only") = false)
    (hg : g ∈ fields) (hgname : g.ident = some n) (hgattrs : g.attrs = []) :
    patch_field_keep f = ((!(hasAttr f "locked")) && (!(hasAttr f "insert_only")))
    ∧ row_field_keep insert_black_list f
        = ((!(hasAttr f "locked")) && (!(hasAttr f "update_only")))
    ∧ row_field_keep update_black_list f
        = ((!(hasAttr f "locked")) && (!(hasAttr f "insert_only")))
    ∧ patch_field_keep ⟨f.ident, f.ty, f.attrs ++ [a]⟩ = patch_field_keep f
    ∧ row_field_keep insert_black_list ⟨f.ident, f.ty, f.attrs ++ [a]⟩
        = row_field_keep insert_black_list f
    ∧ row_field_keep update_black_list ⟨f.ident, f.ty, f.attrs ++ [a]⟩
        = row_field_keep update_black_list f
    ∧ (⟨n, g.ty⟩ : PatchVariant) ∈ to_patches_variants fields
    ∧ (⟨n, g.ty, false⟩ : RowProp) ∈ to_row_props insert_black_list fields
    ∧ (⟨n, g.ty, true⟩ : RowProp) ∈ to_row_props update_black_list fields := by
  refine ⟨patch_field_keep_eq f, row_field_keep_insert f, row_field_keep_update f,
    ?_, ?_, ?_, ?_, ?_, ?_⟩
  · rw [patch_field_keep_eq, patch_field_keep_eq]
    simp [hasAttr, List.any_append, Attr.isIdent, h1, h2]
  · rw [row_field_keep_insert, row_field_keep_insert]
    simp [hasAttr, List.any_append, Attr.isIdent, h1, h3]
  · rw [row_field_keep_update, row_field_keep_update]
    simp [hasAttr, List.any_append, Attr.isIdent, h1, h2]
  · rw [to_patches_variants_eq]
    refine List.mem_filterMap.mpr ⟨g, hg, ?_⟩
    simp [patch_variant_of, hgname, patch_field_keep, hgattrs]
  · rw [to_row_props_eq]
    refine List.mem_filterMap.mpr ⟨g, hg, ?_⟩
    simp [row_prop_of, hgname, row_field_keep, hgattrs, to_row_is_insert, insert_black_list]
  · rw [to_row_props_eq]
    refine List.mem_filterMap.mpr ⟨g, hg, ?_⟩
    simp [row_prop_of, hgname, row_field_keep, hgattrs, to_row_is_insert, update_black_list]

/-- The field used to witness C10's invariance part: it carries only
non-policy attributes. -/
def json_field : SField :=
  ⟨some "data", "serde_json::Value", [⟨"sqlx"⟩, ⟨"serde"⟩]⟩

/-- The attribute-less field used to witness C10's inclusion part. -/
def plain_field : SField :=
  ⟨some "plain", "i32", []⟩

theorem C10_attr_blacklists_witness :
    ((⟨"sqlx"⟩ : Attr).path == "locked") = false
    ∧ ((⟨"sqlx"⟩ : Attr).path == "insert_only") = false
    ∧ ((⟨"sqlx"⟩ : Attr).path == "update_only") = false
    ∧ plain_field ∈ [plain_field, json_field]
    ∧ plain_field.ident = some "plain"
    ∧ plain_field.attrs = []
    ∧ (patch_field_keep json_field
         = ((!(hasAttr json_field "locked")) && (!(hasAttr json_field "insert_only")))
       ∧ row_field_keep insert_black_list json_field
           = ((!(hasAttr json_field "locked")) && (!(hasAttr json_field "update_only")))
       ∧ row_field_keep update_black_list json_field
           = ((!(hasAttr json_field "locked")) && (!(hasAttr json_field "insert_only")))
       ∧ patch_field_keep ⟨json_field.ident, json_field.ty, json_field.attrs ++ [⟨"sqlx"⟩]⟩
           = patch_field_keep json_field
       ∧ row_field_keep insert_black_list
             ⟨json_field.ident, json_field.ty, json_field.attrs ++ [⟨"sqlx"⟩]⟩
           = row_field_keep insert_black_list json_field
       ∧ row_field_keep update_black_list
             ⟨json_field.ident, json_field.ty, json_field.attrs ++ [⟨"sqlx"⟩]⟩
           = row_field_keep update_black_list json_field
       ∧ (⟨"plain", plain_field.ty⟩ : PatchVariant)
           ∈ to_patches_variants [plain_field, json_field]
       ∧ (⟨"plain", plain_field.ty, false⟩ : RowProp)
           ∈ to_row_props insert_black_list [plain_field, json_field]
       ∧ (⟨"plain", plain_field.ty, true⟩ : RowProp)
           ∈ to_row_props update_black_list [plain_field, json_field]) :=
  ⟨by decide, by decide, by decide, by decide, by decide, by decide,
   C10_attr_blacklists json_field plain_field ⟨"sqlx"⟩ [plain_field, json_field] "plain"
     (by decide) (by decide) (by decide) (by decide) (by decide) (by decide)⟩

end MaeMacros
